import Mathlib

/-
Formal model of the grid-maintenance and path-finding glue of the traviso
isometric engine, shallowly embedded from src/js/traviso/EngineView.js.
Map coordinates are integers (JS numbers used as array indexes); the
objArray table is modelled as a total map from positions to an optional
occupant list (null in JS corresponds to none).  Calls into the external
PathFinding component (setDynamicCell, setCell, solve, isCellFilled,
getAdjacentOpenCells) are modelled as emitted values or as function
parameters, since PathFinding.js is not part of this repository.
-/

namespace Traviso

/-- A map location, column index c and row index r (mapPos objects in the source). -/
structure Pos where
  c : Int
  r : Int
deriving DecidableEq

/-- A map-object as far as the grid logic observes it: identity (JS reference
equality, modelled by an id), the isMovableTo flag and the footprint spans. -/
structure MapObj where
  oid : Nat
  isMovableTo : Bool
  columnSpan : Nat
  rowSpan : Nat
deriving DecidableEq

/-- The objArray table of EngineView: each location holds either null or the
list of map-objects referenced there. -/
abbrev Grid : Type := Pos → Option (List MapObj)

/-- Pointwise update of the objArray table. -/
def updateGrid (g : Grid) (p : Pos) (v : Option (List MapObj)) : Grid :=
  fun q => if q = p then v else g q

/-- EngineView.addObjRefToSingleLocation (EngineView.js:989-999).
Creates the cell list when null, appends obj when indexOf is negative, and
calls setDynamicCell(pos.c, pos.r, 0) exactly when obj.isMovableTo is false.
The second component is the walkable boolean passed to setDynamicCell
(none when no dynamic-layer call is made, 0 modelled as false). -/
def addObjRefToSingleLocation (g : Grid) (obj : MapObj) (pos : Pos) :
    Grid × Option Bool :=
  let l := (g pos).getD []
  let l2 := if obj ∈ l then l else l ++ [obj]
  (updateGrid g pos (some l2), if obj.isMovableTo then none else some false)

/-- The aggregation loop of removeObjRefFromSingleLocation
(EngineView.js:1046-1059): walks the remaining occupant list, reports
walkable 0 at the first occupant with isMovableTo false (break), and
walkable 1 when the last occupant is reached with every one movable-to. -/
def remainderWalkable : List MapObj → Bool
  | [] => true
  | x :: rest => if x.isMovableTo then remainderWalkable rest else false

/-- EngineView.removeObjRefFromSingleLocation (EngineView.js:1033-1062).
When the cell list exists: splices out the first occurrence of obj
(indexOf + splice, modelled by List.erase); when the list became empty the
cell is nulled and setDynamicCell(pos.c, pos.r, 1) is called; otherwise one
setDynamicCell call is made with the aggregated walkable boolean of the
remaining occupants.  The second component is the walkable boolean passed
to setDynamicCell (none when no dynamic-layer call is made). -/
def removeObjRefFromSingleLocation (g : Grid) (obj : MapObj) (pos : Pos) :
    Grid × Option Bool :=
  match g pos with
  | none => (g, none)
  | some l =>
    let l2 := l.erase obj
    if l2.length = 0 then
      (updateGrid g pos none, some true)
    else
      (updateGrid g pos (some l2), some (remainderWalkable l2))

lemma remainderWalkable_eq_all (l : List MapObj) :
    remainderWalkable l = l.all (·.isMovableTo) := by
  induction l with
  | nil => rfl
  | cons x rest ih =>
    by_cases hx : x.isMovableTo
    · simp [remainderWalkable, hx, ih]
    · simp [remainderWalkable, hx]

/-- C1: removeObjRefFromSingleLocation on a cell whose reference list exists
leaves the dynamic layer walkable when obj was the only remaining reference;
otherwise it sets the dynamic layer non-walkable exactly when some remaining
occupant has isMovableTo false and walkable exactly when all remaining
occupants have isMovableTo true.  Dually addObjRefToSingleLocation sets the
dynamic layer non-walkable exactly when obj.isMovableTo is false and makes
no dynamic-layer call otherwise. -/
theorem singleLocation_dynamicLayer_spec (g : Grid) (obj : MapObj) (pos : Pos)
    (l : List MapObj) (h : g pos = some l) :
    ((l.erase obj = []) →
      (removeObjRefFromSingleLocation g obj pos).2 = some true)
    ∧ ((l.erase obj ≠ []) →
        (((removeObjRefFromSingleLocation g obj pos).2 = some false) ↔
          (∃ x ∈ l.erase obj, x.isMovableTo = false))
        ∧ (((removeObjRefFromSingleLocation g obj pos).2 = some true) ↔
          (∀ x ∈ l.erase obj, x.isMovableTo = true)))
    ∧ ((addObjRefToSingleLocation g obj pos).2 =
        if obj.isMovableTo then none else some false) := by
  refine ⟨?_, ?_, rfl⟩
  · intro hempty
    simp [removeObjRefFromSingleLocation, h, hempty]
  · intro hne
    have hlen : ¬ (l.erase obj).length = 0 := by
      simpa [List.length_eq_zero] using hne
    constructor
    · simp only [removeObjRefFromSingleLocation, h, hlen, if_false,
        remainderWalkable_eq_all, Option.some_inj]
      simp [List.all_eq_true]
    · simp only [removeObjRefFromSingleLocation, h, hlen, if_false,
        remainderWalkable_eq_all, Option.some_inj]
      simp [List.all_eq_true]

/-- Concrete witness data: one movable-to object sitting alone on cell (0,0). -/
def objW : MapObj := ⟨0, true, 1, 1⟩

/-- Concrete witness grid holding objW at the origin cell. -/
def gridW : Grid := fun q => if q = ⟨0, 0⟩ then some [objW] else none

/-- Witness for C1 at a concrete cell: removing the only occupant reports the
cell walkable, and adding a movable-to object makes no dynamic-layer call. -/
theorem singleLocation_dynamicLayer_spec_witness :
    (removeObjRefFromSingleLocation gridW objW ⟨0, 0⟩).2 = some true
    ∧ (addObjRefToSingleLocation gridW objW ⟨0, 0⟩).2 = none := by
  have h := singleLocation_dynamicLayer_spec gridW objW ⟨0, 0⟩ [objW] rfl
  refine ⟨h.1 (by decide), ?_⟩
  have h3 := h.2.2
  simpa [objW] using h3

/-- The rectangular footprint traversed by addObjRefToLocation and
removeObjRefFromLocation (EngineView.js:969-976 and 1014-1021): the outer
loop walks columns k from pos.c while k < pos.c + columnSpan, the inner
loop walks rows m downward from pos.r while m > pos.r - rowSpan. -/
def footprint (pos : Pos) (columnSpan rowSpan : Nat) : List Pos :=
  ((List.range columnSpan).map (fun (k : Nat) =>
    (List.range rowSpan).map (fun (m : Nat) =>
      Pos.mk (pos.c + (k : Int)) (pos.r - (m : Int))))).flatten

/-- One iteration of the addObjRefToLocation loop body: the single-cell add,
accumulating the emitted setDynamicCell call. -/
def addRefStep (obj : MapObj) (acc : Grid × List (Pos × Bool)) (cell : Pos) :
    Grid × List (Pos × Bool) :=
  let st := addObjRefToSingleLocation acc.1 obj cell
  (st.1, acc.2 ++ (st.2.map (fun b => (cell, b))).toList)

/-- One iteration of the removeObjRefFromLocation loop body: the single-cell
remove, accumulating the emitted setDynamicCell call. -/
def removeRefStep (obj : MapObj) (acc : Grid × List (Pos × Bool)) (cell : Pos) :
    Grid × List (Pos × Bool) :=
  let st := removeObjRefFromSingleLocation acc.1 obj cell
  (st.1, acc.2 ++ (st.2.map (fun b => (cell, b))).toList)

/-- EngineView.addObjRefToLocation (EngineView.js:969-976): nested loops over
the object footprint, calling addObjRefToSingleLocation per cell. -/
def addObjRefToLocation (g : Grid) (obj : MapObj) (pos : Pos) :
    Grid × List (Pos × Bool) :=
  (List.range obj.columnSpan).foldl (fun acc (k : Nat) =>
    (List.range obj.rowSpan).foldl (fun acc2 (m : Nat) =>
      addRefStep obj acc2 (Pos.mk (pos.c + (k : Int)) (pos.r - (m : Int)))) acc)
    (g, [])

/-- EngineView.removeObjRefFromLocation (EngineView.js:1014-1021): nested
loops over the object footprint, calling removeObjRefFromSingleLocation per
cell. -/
def removeObjRefFromLocation (g : Grid) (obj : MapObj) (pos : Pos) :
    Grid × List (Pos × Bool) :=
  (List.range obj.columnSpan).foldl (fun acc (k : Nat) =>
    (List.range obj.rowSpan).foldl (fun acc2 (m : Nat) =>
      removeRefStep obj acc2 (Pos.mk (pos.c + (k : Int)) (pos.r - (m : Int)))) acc)
    (g, [])

/-- EngineView.removeAllObjectRefsFromLocation (EngineView.js:1072-1079):
when the cell list exists, reports the cell walkable and nulls it. -/
def removeAllObjectRefsFromLocation (g : Grid) (pos : Pos) : Grid × Option Bool :=
  match g pos with
  | some _ => (updateGrid g pos none, some true)
  | none => (g, none)

@[simp] lemma Pos.c_mk (a b : Int) : (Pos.mk a b).c = a := rfl

@[simp] lemma Pos.r_mk (a b : Int) : (Pos.mk a b).r = b := rfl

lemma mem_footprint (pos : Pos) (cs rs : Nat) (q : Pos) :
    q ∈ footprint pos cs rs ↔
      pos.c ≤ q.c ∧ q.c < pos.c + (cs : Int)
      ∧ pos.r - (rs : Int) < q.r ∧ q.r ≤ pos.r := by
  obtain ⟨qc, qr⟩ := q
  simp only [Pos.c_mk, Pos.r_mk]
  rw [footprint, List.mem_flatten]
  constructor
  · rintro ⟨l, hl, hql⟩
    rw [List.mem_map] at hl
    obtain ⟨k, hk, rfl⟩ := hl
    rw [List.mem_range] at hk
    rw [List.mem_map] at hql
    obtain ⟨m, hm, hqe⟩ := hql
    rw [List.mem_range] at hm
    rw [Pos.mk.injEq] at hqe
    obtain ⟨he1, he2⟩ := hqe
    refine ⟨?_, ?_, ?_, ?_⟩ <;> omega
  · rintro ⟨h1, h2, h3, h4⟩
    refine ⟨_, List.mem_map.mpr
      ⟨(qc - pos.c).toNat, List.mem_range.mpr (by omega), rfl⟩, ?_⟩
    refine List.mem_map.mpr
      ⟨(pos.r - qr).toNat, List.mem_range.mpr (by omega), ?_⟩
    rw [Pos.mk.injEq]
    constructor <;> omega

lemma footprint_nodup (pos : Pos) (cs rs : Nat) :
    (footprint pos cs rs).Nodup := by
  rw [footprint, List.nodup_flatten]
  constructor
  · intro l hl
    rw [List.mem_map] at hl
    obtain ⟨k, hk, rfl⟩ := hl
    refine List.Nodup.map ?_ (List.nodup_range rs)
    intro m1 m2 hinj
    simp only [Pos.mk.injEq] at hinj
    omega
  · rw [List.pairwise_map]
    refine (List.pairwise_lt_range cs).imp ?_
    intro k1 k2 hlt q hq1 hq2
    rw [List.mem_map] at hq1 hq2
    obtain ⟨m1, hm1, hqe1⟩ := hq1
    obtain ⟨m2, hm2, hqe2⟩ := hq2
    rw [← hqe2] at hqe1
    simp only [Pos.mk.injEq] at hqe1
    omega

/-- C6: addObjRefToLocation and removeObjRefFromLocation apply the
single-cell add/remove exactly once (the footprint list has no duplicate)
to exactly the cells of the rectangular footprint: columns k with
pos.c <= k < pos.c + columnSpan, rows m with pos.r - rowSpan < m <= pos.r. -/
theorem objRefLocation_footprint_spec (g : Grid) (obj : MapObj) (pos : Pos) :
    (footprint pos obj.columnSpan obj.rowSpan).Nodup
    ∧ (∀ q, q ∈ footprint pos obj.columnSpan obj.rowSpan ↔
        (pos.c ≤ q.c ∧ q.c < pos.c + (obj.columnSpan : Int)
         ∧ pos.r - (obj.rowSpan : Int) < q.r ∧ q.r ≤ pos.r))
    ∧ addObjRefToLocation g obj pos =
        (footprint pos obj.columnSpan obj.rowSpan).foldl (addRefStep obj) (g, [])
    ∧ removeObjRefFromLocation g obj pos =
        (footprint pos obj.columnSpan obj.rowSpan).foldl (removeRefStep obj) (g, []) := by
  refine ⟨footprint_nodup pos obj.columnSpan obj.rowSpan,
    fun q => mem_footprint pos obj.columnSpan obj.rowSpan q, ?_, ?_⟩
  · rw [footprint, List.foldl_flatten, List.foldl_map]
    simp only [addObjRefToLocation, List.foldl_map]
  · rw [footprint, List.foldl_flatten, List.foldl_map]
    simp only [removeObjRefFromLocation, List.foldl_map]

/-- The no-duplicates invariant on the objArray table: every existing cell
list is free of duplicate object references. -/
def NodupInv (g : Grid) : Prop :=
  ∀ p l, g p = some l → l.Nodup

lemma nodupInv_updateGrid {g : Grid} {p : Pos} {v : Option (List MapObj)}
    (hg : NodupInv g) (hv : ∀ l, v = some l → l.Nodup) :
    NodupInv (updateGrid g p v) := by
  intro q l hql
  unfold updateGrid at hql
  by_cases hqp : q = p
  · rw [if_pos hqp] at hql
    exact hv l hql
  · rw [if_neg hqp] at hql
    exact hg q l hql

lemma nodupInv_addSingle (g : Grid) (obj : MapObj) (pos : Pos)
    (hg : NodupInv g) : NodupInv (addObjRefToSingleLocation g obj pos).1 := by
  unfold addObjRefToSingleLocation
  refine nodupInv_updateGrid hg ?_
  intro l hl
  simp only [Option.some_inj] at hl
  subst hl
  have hbase : ((g pos).getD []).Nodup := by
    cases hgp : g pos with
    | none => simp
    | some l0 => simpa using hg pos l0 hgp
  by_cases hmem : obj ∈ (g pos).getD []
  · simpa [hmem] using hbase
  · simp only [hmem, if_false]
    refine List.Nodup.append hbase (by simp) ?_
    intro a ha hb
    simp only [List.mem_singleton] at hb
    subst hb
    exact hmem ha

lemma nodupInv_removeSingle (g : Grid) (obj : MapObj) (pos : Pos)
    (hg : NodupInv g) : NodupInv (removeObjRefFromSingleLocation g obj pos).1 := by
  unfold removeObjRefFromSingleLocation
  cases hgp : g pos with
  | none => exact hg
  | some l =>
    by_cases hlen : (l.erase obj).length = 0
    · simp only [hlen, if_true]
      exact nodupInv_updateGrid hg (fun l2 h => by cases h)
    · simp only [hlen, if_false]
      refine nodupInv_updateGrid hg ?_
      intro l2 hl2
      simp only [Option.some_inj] at hl2
      subst hl2
      exact (List.erase_sublist obj l).nodup (hg pos l hgp)

lemma nodupInv_removeAll (g : Grid) (pos : Pos)
    (hg : NodupInv g) : NodupInv (removeAllObjectRefsFromLocation g pos).1 := by
  unfold removeAllObjectRefsFromLocation
  cases hgp : g pos with
  | none => exact hg
  | some l => exact nodupInv_updateGrid hg (fun l2 h => by cases h)

lemma foldl_preserves_nodupInv {α : Type}
    (step : (Grid × List (Pos × Bool)) → α → (Grid × List (Pos × Bool)))
    (hstep : ∀ acc a, NodupInv acc.1 → NodupInv (step acc a).1) :
    ∀ (l : List α) (acc : Grid × List (Pos × Bool)),
      NodupInv acc.1 → NodupInv (l.foldl step acc).1 := by
  intro l
  induction l with
  | nil => intro acc h; exact h
  | cons a rest ih =>
    intro acc h
    exact ih (step acc a) (hstep acc a h)

/-- C10: the no-duplicates invariant on every objArray cell list is
preserved by every operation that mutates objArray: the single-cell add
(which appends only when indexOf is negative), the single-cell remove
(which only splices out an entry), the clear-all operation, and the
footprint-wide add and remove built from them. -/
theorem objArray_nodup_invariant (g : Grid) (obj : MapObj) (pos : Pos)
    (h : NodupInv g) :
    NodupInv (addObjRefToSingleLocation g obj pos).1
    ∧ NodupInv (removeObjRefFromSingleLocation g obj pos).1
    ∧ NodupInv (removeAllObjectRefsFromLocation g pos).1
    ∧ NodupInv (addObjRefToLocation g obj pos).1
    ∧ NodupInv (removeObjRefFromLocation g obj pos).1 := by
  refine ⟨nodupInv_addSingle g obj pos h, nodupInv_removeSingle g obj pos h,
    nodupInv_removeAll g pos h, ?_, ?_⟩
  · unfold addObjRefToLocation
    refine foldl_preserves_nodupInv _ ?_ _ (g, []) h
    intro acc k hacc
    refine foldl_preserves_nodupInv _ ?_ _ acc hacc
    intro acc2 m hacc2
    exact nodupInv_addSingle acc2.1 obj _ hacc2
  · unfold removeObjRefFromLocation
    refine foldl_preserves_nodupInv _ ?_ _ (g, []) h
    intro acc k hacc
    refine foldl_preserves_nodupInv _ ?_ _ acc hacc
    intro acc2 m hacc2
    exact nodupInv_removeSingle acc2.1 obj _ hacc2

/-- The everywhere-null objArray table, used as a concrete witness input. -/
def emptyGrid : Grid := fun _ => none

/-- Witness for C10 at a concrete grid: the invariant holds after each
mutating operation starting from the empty table. -/
theorem objArray_nodup_invariant_witness :
    NodupInv (addObjRefToSingleLocation emptyGrid objW ⟨0, 0⟩).1
    ∧ NodupInv (removeObjRefFromSingleLocation emptyGrid objW ⟨0, 0⟩).1
    ∧ NodupInv (removeAllObjectRefsFromLocation emptyGrid ⟨0, 0⟩).1
    ∧ NodupInv (addObjRefToLocation emptyGrid objW ⟨0, 0⟩).1
    ∧ NodupInv (removeObjRefFromLocation emptyGrid objW ⟨0, 0⟩).1 :=
  objArray_nodup_invariant emptyGrid objW ⟨0, 0⟩
    (fun _ _ hl => Option.noConfusion hl)

/-- A ground tile as the grid logic observes it: TileView construction is
external to the grid code, only the isMovableTo flag reaches the static
layer. -/
structure Tile where
  isMovableTo : Bool
deriving DecidableEq

/-- Lookup of groundMapData[i][j] with JS semantics: an out-of-range index
yields undefined, modelled as none. -/
def groundAt (ground : List (List (Option Tile))) (i j : Nat) : Option Tile :=
  (((ground.get? i).getD []).get? j).getD none

/-- The createMap static-layer decision for one ground entry
(EngineView.js:433-452): an absent entry, or a tile that is not
movable-to, yields a setCell(j, i, 0) call; a movable-to tile yields no
static-layer call. -/
def staticCellEntry (i j : Nat) : Option Tile → Option (Nat × Nat × Nat)
  | some t => if t.isMovableTo then none else some (j, i, 0)
  | none => some (j, i, 0)

/-- The static-layer calls emitted by createMap (EngineView.js:428-454):
rows i ascending over groundMapData.length, columns j descending from
groundMapData[0].length - 1.  Triples are (column, row, walkable) as passed
to pathFinding.setCell. -/
def staticSetCalls (ground : List (List (Option Tile))) :
    List (Nat × Nat × Nat) :=
  ((List.range ground.length).map (fun i =>
    ((List.range (ground.headD []).length).reverse).filterMap (fun j =>
      staticCellEntry i j (groundAt ground i j)))).flatten

/-- C3: during createMap the static layer receives setCell(j, i, 0), and
only walkable = 0, exactly for the in-range cells whose ground entry is
absent or whose tile has isMovableTo false; movable-to tiles get no
static-layer mutation. -/
theorem createMap_staticLayer_spec (ground : List (List (Option Tile)))
    (i j : Nat) :
    ((j, i, 0) ∈ staticSetCalls ground ↔
      (i < ground.length ∧ j < (ground.headD []).length ∧
        (groundAt ground i j = none
         ∨ ∃ t, groundAt ground i j = some t ∧ t.isMovableTo = false)))
    ∧ (∀ call ∈ staticSetCalls ground, call.2.2 = 0) := by
  constructor
  · constructor
    · intro hmem
      rw [staticSetCalls, List.mem_flatten] at hmem
      obtain ⟨l, hl, hcall⟩ := hmem
      rw [List.mem_map] at hl
      obtain ⟨i0, hi0, rfl⟩ := hl
      rw [List.mem_range] at hi0
      rw [List.mem_filterMap] at hcall
      obtain ⟨j0, hj0, hf⟩ := hcall
      rw [List.mem_reverse, List.mem_range] at hj0
      cases hg : groundAt ground i0 j0 with
      | some t =>
        rw [hg] at hf
        by_cases hmov : t.isMovableTo
        · simp [staticCellEntry, hmov] at hf
        · simp only [staticCellEntry, hmov, if_false, Option.some_inj,
            Prod.mk.injEq] at hf
          obtain ⟨rfl, rfl, -⟩ := hf
          exact ⟨hi0, hj0, Or.inr ⟨t, hg, by simpa using hmov⟩⟩
      | none =>
        rw [hg] at hf
        simp only [staticCellEntry, Option.some_inj, Prod.mk.injEq] at hf
        obtain ⟨rfl, rfl, -⟩ := hf
        exact ⟨hi0, hj0, Or.inl hg⟩
    · rintro ⟨hi, hj, hcond⟩
      rw [staticSetCalls, List.mem_flatten]
      refine ⟨_, List.mem_map.mpr ⟨i, List.mem_range.mpr hi, rfl⟩, ?_⟩
      rw [List.mem_filterMap]
      refine ⟨j, by rw [List.mem_reverse, List.mem_range]; exact hj, ?_⟩
      rcases hcond with hnone | ⟨t, ht, hmov⟩
      · rw [hnone]
        rfl
      · rw [ht]
        simp [staticCellEntry, hmov]
  · intro call hcall
    rw [staticSetCalls, List.mem_flatten] at hcall
    obtain ⟨l, hl, hc⟩ := hcall
    rw [List.mem_map] at hl
    obtain ⟨i0, hi0, rfl⟩ := hl
    rw [List.mem_filterMap] at hc
    obtain ⟨j0, hj0, hf⟩ := hc
    cases hg : groundAt ground i0 j0 with
    | some t =>
      rw [hg] at hf
      by_cases hmov : t.isMovableTo
      · simp [staticCellEntry, hmov] at hf
      · simp [staticCellEntry, hmov] at hf
        simp [← hf]
    | none =>
      rw [hg] at hf
      simp only [staticCellEntry, Option.some_inj] at hf
      rw [← hf]

/-- A concrete 1-by-2 ground map: a movable-to tile at (0,0) and a blocked
tile at (0,1). -/
def groundW : List (List (Option Tile)) := [[some ⟨true⟩, some ⟨false⟩]]

/-- Witness for C3 at the concrete ground map: the blocked tile produces a
setCell(1, 0, 0) call and the movable-to tile produces none. -/
theorem createMap_staticLayer_spec_witness :
    ((1, 0, 0) ∈ staticSetCalls groundW)
    ∧ ¬ ((0, 0, 0) ∈ staticSetCalls groundW) := by
  constructor
  · exact (createMap_staticLayer_spec groundW 0 1).1.mpr
      ⟨by decide, by decide, Or.inr ⟨⟨false⟩, by decide, rfl⟩⟩
  · intro hmem
    have h := (createMap_staticLayer_spec groundW 0 0).1.mp hmem
    rcases h.2.2 with hnone | ⟨t, ht, hmov⟩
    · exact absurd hnone (by decide)
    · have : t = ⟨true⟩ := by
        have := ht
        simp [groundAt, groundW] at this
        cases t
        simpa using this.symm
      subst this
      exact absurd hmov (by decide)

/-- The per-object movement bookkeeping touched by onObjMoveStepEnd:
the current path and the index of the current step into it. -/
structure MoveState where
  currentPath : List Pos
  currentPathStep : Int

/-- What onObjMoveStepEnd decides to do after decrementing the step. -/
inductive StepEndAction where
  | pathEnded : StepEndAction
  | research (target : Option Pos) : StepEndAction
  | continueOnPath (newPath : List Pos) : StepEndAction
deriving DecidableEq

/-- EngineView.onObjMoveStepEnd (EngineView.js:1351-1374): decrements
currentPathStep; the path has ended when the step drops below zero;
otherwise when config.checkPathOnEachTile is set a fresh search toward
currentPath[0].mapPos is issued, and when it is not the last path entry is
spliced off and the object continues along the shortened path. -/
def onObjMoveStepEnd (checkPathOnEachTile : Bool) (s : MoveState) :
    Int × StepEndAction :=
  let step := s.currentPathStep - 1
  if step < 0 then (step, .pathEnded)
  else if checkPathOnEachTile then (step, .research s.currentPath.head?)
  else (step, .continueOnPath s.currentPath.dropLast)

/-- Modelled from the spec: PathFinding.js is not part of this repository.
Spec section 4.2 step 5 says path reconstruction walks predecessor links
from the accepted goal node back to, but excluding, the source, producing
the goal-first ordering of section 3; fuel bounds the walk. -/
def reconstructPath (parent : Pos → Option Pos) (source : Pos) :
    Nat → Pos → List Pos
  | 0, _ => []
  | fuel + 1, node =>
    if node = source then []
    else node :: (match parent node with
      | some p => reconstructPath parent source fuel p
      | none => [])

/-- C4: a path is goal-first (the reconstruction of the spec-modelled
solver places the goal at the head) and is consumed from the end:
onObjMoveStepEnd decrements currentPathStep, the path has ended exactly
when the step drops below zero, and otherwise the object either re-plans
toward currentPath[0] (checkPathOnEachTile true) or drops the last path
entry and continues (checkPathOnEachTile false). -/
theorem onObjMoveStepEnd_spec (checkPathOnEachTile : Bool) (s : MoveState)
    (parent : Pos → Option Pos) (source goal : Pos) (fuel : Nat) :
    ((onObjMoveStepEnd checkPathOnEachTile s).1 = s.currentPathStep - 1)
    ∧ ((onObjMoveStepEnd checkPathOnEachTile s).2 = .pathEnded
        ↔ s.currentPathStep - 1 < 0)
    ∧ (0 ≤ s.currentPathStep - 1 →
        (checkPathOnEachTile = true →
          (onObjMoveStepEnd checkPathOnEachTile s).2
            = .research s.currentPath.head?)
        ∧ (checkPathOnEachTile = false →
          (onObjMoveStepEnd checkPathOnEachTile s).2
            = .continueOnPath s.currentPath.dropLast))
    ∧ (goal ≠ source →
        (reconstructPath parent source (fuel + 1) goal).head? = some goal) := by
  refine ⟨?_, ?_, ?_, ?_⟩
  · by_cases hstep : s.currentPathStep - 1 < 0 <;>
      cases checkPathOnEachTile <;> simp [onObjMoveStepEnd, hstep]
  · by_cases hstep : s.currentPathStep - 1 < 0 <;>
      cases checkPathOnEachTile <;> simp [onObjMoveStepEnd, hstep]
  · intro hstep
    have hstep2 : ¬ (s.currentPathStep - 1 < 0) := by omega
    cases checkPathOnEachTile <;>
      simp [onObjMoveStepEnd, hstep2]
  · intro hgoal
    rw [reconstructPath, if_neg hgoal]
    rfl

/-- Witness for C4 at a concrete state: on a two-cell path at step 1 with
checkPathOnEachTile off, the step decrements to 0, the path has not ended,
the object continues along the shortened path, and the spec-modelled
reconstruction starting at the goal puts the goal first. -/
theorem onObjMoveStepEnd_spec_witness :
    ((onObjMoveStepEnd false ⟨[⟨3, 4⟩, ⟨2, 2⟩], 1⟩).1 = 0)
    ∧ ((onObjMoveStepEnd false ⟨[⟨3, 4⟩, ⟨2, 2⟩], 1⟩).2
        = .continueOnPath [⟨3, 4⟩])
    ∧ ((reconstructPath (fun _ => none) ⟨0, 0⟩ 1 ⟨3, 4⟩).head? = some ⟨3, 4⟩) := by
  have h := onObjMoveStepEnd_spec false ⟨[⟨3, 4⟩, ⟨2, 2⟩], 1⟩
    (fun _ => none) ⟨0, 0⟩ ⟨3, 4⟩ 0
  refine ⟨by simpa using h.1, ?_, h.2.2.2 (by decide)⟩
  have h3 := (h.2.2.1 (by decide)).2 rfl
  simpa using h3

/-- The observable effects of one onObjMoveStepBegin call. -/
structure StepBeginResult where
  moved : Bool
  addedToMoveEngine : Bool
  removedFromMoveEngine : Bool
  replanTarget : Option Pos
deriving DecidableEq

/-- EngineView.onObjMoveStepBegin (EngineView.js:1298-1336): when the grid
reports the target cell open (pathFinding.isCellFilled(pos.c, pos.r) is
false) the object is handed to the move engine and true is returned;
otherwise the object is removed from the move engine, a re-plan toward
currentPath[0].mapPos is issued, and false is returned. -/
def onObjMoveStepBegin (isCellFilled : Int → Int → Bool)
    (currentPath : List Pos) (pos : Pos) : StepBeginResult :=
  if !(isCellFilled pos.c pos.r) then
    ⟨true, true, false, none⟩
  else
    ⟨false, false, true, currentPath.head?⟩

/-- C7: onObjMoveStepBegin returns true and hands the object to the move
engine exactly when the grid reports the target cell open; on a filled
cell it returns false, removes the object from the move engine and
re-plans toward currentPath[0] — the object is never handed to the move
engine for a cell the grid reports blocked. -/
theorem onObjMoveStepBegin_spec (isCellFilled : Int → Int → Bool)
    (currentPath : List Pos) (pos : Pos) :
    ((onObjMoveStepBegin isCellFilled currentPath pos).moved
        = !(isCellFilled pos.c pos.r))
    ∧ ((onObjMoveStepBegin isCellFilled currentPath pos).addedToMoveEngine
        = !(isCellFilled pos.c pos.r))
    ∧ ((onObjMoveStepBegin isCellFilled currentPath pos).removedFromMoveEngine
        = isCellFilled pos.c pos.r)
    ∧ ((onObjMoveStepBegin isCellFilled currentPath pos).replanTarget
        = if isCellFilled pos.c pos.r then currentPath.head? else none) := by
  by_cases hf : isCellFilled pos.c pos.r <;>
    simp [onObjMoveStepBegin, hf]

/-- Witness for C7 at a concrete filled cell: the move is refused, the
object is removed from the move engine and re-planning targets the head of
the current path. -/
theorem onObjMoveStepBegin_spec_witness :
    ((onObjMoveStepBegin (fun _ _ => true) [⟨9, 9⟩] ⟨1, 2⟩).moved = false)
    ∧ ((onObjMoveStepBegin (fun _ _ => true) [⟨9, 9⟩] ⟨1, 2⟩).replanTarget
        = some ⟨9, 9⟩) := by
  have h := onObjMoveStepBegin_spec (fun _ _ => true) [⟨9, 9⟩] ⟨1, 2⟩
  exact ⟨by simpa using h.1, by simpa using h.2.2.2⟩

/-- The solve entry point of the external pathfinder exactly as getPath
invokes it: four scalar position arguments, returning a path or a no-path
failure (null).  PathFinding.js is not part of this repository, so the
function itself stays abstract. -/
abbrev SolveFun : Type := Int → Int → Int → Int → Option (List Pos)

/-- The errors EngineView throws in the modelled fragment; the
uninitialized-path-finding error is the one thrown at EngineView.js:1446. -/
inductive EngineError where
  | pathFindingNotInitialized : EngineError
deriving DecidableEq

/-- The slice of EngineView state that getPath and destroy interact
through: this.pathFinding, null once destroy has run. -/
structure EngineState where
  pathFinding : Option SolveFun

/-- EngineView.getPath (EngineView.js:1443-1447): delegates to
pathFinding.solve(from.c, from.r, to.c, to.r) when pathFinding exists and
throws the initialization error otherwise. -/
def getPath (s : EngineState) (src dst : Pos) :
    Except EngineError (Option (List Pos)) :=
  match s.pathFinding with
  | some solve => .ok (solve src.c src.r dst.c dst.r)
  | none => .error .pathFindingNotInitialized

/-- EngineView.destroy (EngineView.js:1819-1888) restricted to the
path-finding slice of the state: pathFinding.destroy() is invoked and
this.pathFinding is set to null (the remaining teardown nulls the visual
containers and arrays, none of which getPath reads). -/
def destroy (_s : EngineState) : EngineState := ⟨none⟩

/-- A probe solver whose result records its first scalar argument, used to
observe the argument order of the getPath delegation. -/
def probeSolve : SolveFun := fun a _ _ _ => some [⟨a, 0⟩]

/-- C2 counterexample: at from = (c 5, r 7), to = (c 1, r 2), getPath does
not make the row-first call solve(from.r, from.c, to.r, to.c) — the probe
solver shows the first argument passed is the source column 5, not the
source row 7. -/
theorem getPath_rowFirst_counterexample :
    getPath ⟨some probeSolve⟩ ⟨5, 7⟩ ⟨1, 2⟩ ≠ .ok (probeSolve 7 5 2 1) := by
  intro h
  simp [getPath, probeSolve] at h

/-- C2 amended: EngineView.getPath delegates to solve with column-first
argument order: solve(from.c, from.r, to.c, to.r). -/
theorem getPath_columnFirst (solve : SolveFun) (src dst : Pos) :
    getPath ⟨some solve⟩ src dst = .ok (solve src.c src.r dst.c dst.r) := rfl

/-- C9: after destroy has run, pathFinding is null and every getPath call
throws the initialization error instead of returning a no-path result;
more generally getPath throws exactly when pathFinding is null. -/
theorem getPath_after_destroy (s : EngineState) (src dst : Pos) :
    (destroy s).pathFinding = none
    ∧ getPath (destroy s) src dst = .error .pathFindingNotInitialized
    ∧ (∀ s2 : EngineState, s2.pathFinding = none →
        getPath s2 src dst = .error .pathFindingNotInitialized) := by
  refine ⟨rfl, rfl, ?_⟩
  intro s2 h2
  unfold getPath
  rw [h2]

/-- Witness for C9 at a concrete state: destroying a live engine makes
getPath throw. -/
theorem getPath_after_destroy_witness :
    getPath (destroy ⟨some probeSolve⟩) ⟨0, 0⟩ ⟨1, 1⟩
      = .error .pathFindingNotInitialized :=
  (getPath_after_destroy ⟨some probeSolve⟩ ⟨0, 0⟩ ⟨1, 1⟩).2.1

/-- The value checkAndMoveObjectToLocation hands back: path.length when a
path was returned (a JS number), the JS literal false otherwise. -/
inductive CheckMoveResult where
  | moved (len : Nat) : CheckMoveResult
  | noPath : CheckMoveResult
deriving DecidableEq

/-- EngineView.checkAndMoveObjectToLocation (EngineView.js:1488-1499),
parameterised by the path value getPath returned: a JS array — even an
empty one — is truthy, so any returned path enters the begin-moving branch
(moveObjThrough) and the call returns path.length; a null path returns
false.  The second component records whether moveObjThrough was invoked. -/
def checkAndMoveObjectToLocation (path : Option (List Pos)) :
    CheckMoveResult × Bool :=
  match path with
  | some p => (.moved p.length, true)
  | none => (.noPath, false)

/-- Modelled from the spec: PathFinding.js is not part of this repository;
spec section 4.2 step 1 states that solve returns an empty path when the
source equals the target. -/
def solveSameTarget : Option (List Pos) := some []

/-- C5 counterexample: on the empty path that solve returns for a
same-cell request, checkAndMoveObjectToLocation does begin a movement —
moveObjThrough is invoked — contradicting the claim that no movement
begins. -/
theorem emptyPath_beginsMovement_counterexample :
    (checkAndMoveObjectToLocation solveSameTarget).2 = true := rfl

/-- C5 amended: an empty path yields the result 0 (path.length), a value
distinct from the no-route result false — though both are falsy in JS —
and checkAndMoveObjectToLocation does invoke moveObjThrough on the empty
path, because an empty JS array is truthy. -/
theorem checkAndMove_emptyPath_spec :
    ((checkAndMoveObjectToLocation solveSameTarget).1 = .moved 0)
    ∧ ((checkAndMoveObjectToLocation none).1 = .noPath)
    ∧ (∀ p : List Pos, (checkAndMoveObjectToLocation (some p)).1 ≠ .noPath)
    ∧ ((checkAndMoveObjectToLocation solveSameTarget).2 = true) := by
  refine ⟨rfl, rfl, ?_, rfl⟩
  intro p h
  simp [checkAndMoveObjectToLocation] at h

/-- The outcome of moveCurrentControllableToObj once the preferred
interaction point has been handled: the already-standing early return, a
movement along a chosen path, or the failure return false. -/
inductive MoveToObjResult where
  | standing : MoveToObjResult
  | movedAlong (path : List Pos) : MoveToObjResult
  | failed : MoveToObjResult
deriving DecidableEq

/-- The cell scan of moveCurrentControllableToObj (EngineView.js:1552-1577):
cells without a tile are skipped; reaching a tiled cell the controllable
already stands on returns immediately; otherwise a path to the cell is
searched and kept when strictly shorter than the best so far.  hasTile
models tileArray lookup, getPathFn models this.getPath. -/
def adjacentLoop (hasTile : Pos → Bool)
    (getPathFn : Pos → Pos → Option (List Pos)) (ctrl : Pos) :
    List Pos → Nat → Option (List Pos) → MoveToObjResult
  | [], _, minPath =>
    match minPath with
    | some p => .movedAlong p
    | none => .failed
  | cell :: rest, minLength, minPath =>
    if hasTile cell then
      if cell = ctrl then .standing
      else
        match getPathFn ctrl cell with
        | some path =>
          if path.length < minLength then
            adjacentLoop hasTile getPathFn ctrl rest path.length (some path)
          else
            adjacentLoop hasTile getPathFn ctrl rest minLength minPath
        | none => adjacentLoop hasTile getPathFn ctrl rest minLength minPath
    else adjacentLoop hasTile getPathFn ctrl rest minLength minPath

/-- EngineView.moveCurrentControllableToObj (EngineView.js:1533-1588) after
the preferred-interaction-offset attempt: the scan over the cells returned
by pathFinding.getAdjacentOpenCells starts with minLength = 3000 and no
path found. -/
def moveCurrentControllableToObj (hasTile : Pos → Bool)
    (getPathFn : Pos → Pos → Option (List Pos)) (ctrl : Pos)
    (cellArray : List Pos) : MoveToObjResult :=
  adjacentLoop hasTile getPathFn ctrl cellArray 3000 none

/-- The paths the scan finds: one per scanned cell that has a tile and a
route, in scan order. -/
def foundPaths (hasTile : Pos → Bool)
    (getPathFn : Pos → Pos → Option (List Pos)) (ctrl : Pos)
    (cells : List Pos) : List (List Pos) :=
  (cells.filter (fun cell => hasTile cell)).filterMap
    (fun cell => getPathFn ctrl cell)

/-- The keep-if-strictly-shorter fold underlying the scan accumulator. -/
def foldMin : List (List Pos) → Nat → Option (List Pos) →
    Nat × Option (List Pos)
  | [], minLength, minPath => (minLength, minPath)
  | p :: rest, minLength, minPath =>
    if p.length < minLength then foldMin rest p.length (some p)
    else foldMin rest minLength minPath

lemma foldMin_none :
    ∀ (ps : List (List Pos)) (ml : Nat) (mp : Option (List Pos)),
      (foldMin ps ml mp).2 = none ↔ (mp = none ∧ ∀ p ∈ ps, ml ≤ p.length) := by
  intro ps
  induction ps with
  | nil => intro ml mp; simp [foldMin]
  | cons p rest ih =>
    intro ml mp
    by_cases hp : p.length < ml
    · rw [foldMin, if_pos hp, ih]
      constructor
      · rintro ⟨h, -⟩
        cases h
      · rintro ⟨-, h2⟩
        exact absurd (h2 p (List.mem_cons_self p rest)) (by omega)
    · rw [foldMin, if_neg hp, ih]
      constructor
      · rintro ⟨h1, h2⟩
        refine ⟨h1, ?_⟩
        intro q hq
        rcases List.mem_cons.mp hq with rfl | hq2
        · omega
        · exact h2 q hq2
      · rintro ⟨h1, h2⟩
        exact ⟨h1, fun q hq => h2 q (List.mem_cons_of_mem _ hq)⟩

lemma foldMin_some_spec :
    ∀ (ps : List (List Pos)) (ml : Nat) (mp : Option (List Pos)) (p : List Pos),
      (foldMin ps ml mp).2 = some p →
      (((p ∈ ps ∧ p.length < ml) ∨ mp = some p)
       ∧ (∀ q ∈ ps, q.length < ml → p.length ≤ q.length)) := by
  intro ps
  induction ps with
  | nil =>
    intro ml mp p h
    simp only [foldMin] at h
    exact ⟨Or.inr h, by simp⟩
  | cons p0 rest ih =>
    intro ml mp p h
    by_cases hp0 : p0.length < ml
    · rw [foldMin, if_pos hp0] at h
      obtain ⟨hfst, hmin⟩ := ih p0.length (some p0) p h
      have hple : p.length ≤ p0.length := by
        rcases hfst with ⟨-, hlt⟩ | heq
        · omega
        · injection heq with heq
          rw [heq]
      refine ⟨?_, ?_⟩
      · rcases hfst with ⟨hmem, -⟩ | heq
        · exact Or.inl ⟨List.mem_cons_of_mem _ hmem, by omega⟩
        · injection heq with heq
          subst heq
          exact Or.inl ⟨List.mem_cons_self p0 rest, hp0⟩
      · intro q hq hqlt
        rcases List.mem_cons.mp hq with rfl | hq2
        · omega
        · by_cases hqlt2 : q.length < p0.length
          · exact hmin q hq2 hqlt2
          · omega
    · rw [foldMin, if_neg hp0] at h
      obtain ⟨hfst, hmin⟩ := ih ml mp p h
      refine ⟨?_, ?_⟩
      · rcases hfst with ⟨hmem, hlt⟩ | heq
        · exact Or.inl ⟨List.mem_cons_of_mem _ hmem, hlt⟩
        · exact Or.inr heq
      · intro q hq hqlt
        rcases List.mem_cons.mp hq with rfl | hq2
        · omega
        · exact hmin q hq2 hqlt

lemma adjacentLoop_standing (hasTile : Pos → Bool)
    (getPathFn : Pos → Pos → Option (List Pos)) (ctrl : Pos) :
    ∀ (cells : List Pos) (ml : Nat) (mp : Option (List Pos)),
      (adjacentLoop hasTile getPathFn ctrl cells ml mp = .standing
        ↔ ∃ cell ∈ cells, hasTile cell = true ∧ cell = ctrl) := by
  intro cells
  induction cells with
  | nil =>
    intro ml mp
    cases mp <;> simp [adjacentLoop]
  | cons cell rest ih =>
    intro ml mp
    by_cases ht : hasTile cell
    · by_cases hc : cell = ctrl
      · subst hc
        have heq : adjacentLoop hasTile getPathFn cell (cell :: rest) ml mp
            = .standing := by
          simp [adjacentLoop, ht]
        rw [heq]
        constructor
        · intro _
          exact ⟨cell, List.mem_cons_self cell rest, ht, rfl⟩
        · intro _
          rfl
      · cases hgp : getPathFn ctrl cell with
        | some path =>
          by_cases hlen : path.length < ml
          · simp only [adjacentLoop, ht, hc, hgp, hlen, if_true, if_false]
            rw [ih]
            simp [ht, hc]
          · simp only [adjacentLoop, ht, hc, hgp, hlen, if_true, if_false]
            rw [ih]
            simp [ht, hc]
        | none =>
          simp only [adjacentLoop, ht, hc, hgp, if_true, if_false]
          rw [ih]
          simp [ht, hc]
    · simp only [adjacentLoop, ht]
      rw [if_neg (by simp [ht]), ih]
      simp [ht]

lemma adjacentLoop_noStanding (hasTile : Pos → Bool)
    (getPathFn : Pos → Pos → Option (List Pos)) (ctrl : Pos) :
    ∀ (cells : List Pos) (ml : Nat) (mp : Option (List Pos)),
      (∀ cell ∈ cells, hasTile cell = true → cell ≠ ctrl) →
      adjacentLoop hasTile getPathFn ctrl cells ml mp =
        (match (foldMin (foundPaths hasTile getPathFn ctrl cells) ml mp).2 with
         | some p => .movedAlong p
         | none => .failed) := by
  intro cells
  induction cells with
  | nil =>
    intro ml mp hns
    rfl
  | cons cell rest ih =>
    intro ml mp hns
    have hrest : ∀ c ∈ rest, hasTile c = true → c ≠ ctrl :=
      fun c hc => hns c (List.mem_cons_of_mem _ hc)
    by_cases ht : hasTile cell
    · have hc : cell ≠ ctrl := hns cell (List.mem_cons_self cell rest) ht
      cases hgp : getPathFn ctrl cell with
      | some path =>
        have hfp : foundPaths hasTile getPathFn ctrl (cell :: rest)
            = path :: foundPaths hasTile getPathFn ctrl rest := by
          simp [foundPaths, ht, hgp]
        by_cases hlen : path.length < ml
        · simp only [adjacentLoop, ht, hc, hgp, hlen, if_true, if_false]
          rw [ih _ _ hrest, hfp, foldMin, if_pos hlen]
        · simp only [adjacentLoop, ht, hc, hgp, hlen, if_true, if_false]
          rw [ih _ _ hrest, hfp, foldMin, if_neg hlen]
      | none =>
        have hfp : foundPaths hasTile getPathFn ctrl (cell :: rest)
            = foundPaths hasTile getPathFn ctrl rest := by
          simp [foundPaths, ht, hgp]
        simp only [adjacentLoop, ht, hc, hgp, if_true, if_false]
        rw [ih _ _ hrest, hfp]
    · have hfp : foundPaths hasTile getPathFn ctrl (cell :: rest)
          = foundPaths hasTile getPathFn ctrl rest := by
        simp [foundPaths, ht]
      simp only [adjacentLoop, ht]
      rw [if_neg (by simp [ht]), ih _ _ hrest, hfp]

/-- C8 amended: after the preferred interaction point is handled,
moveCurrentControllableToObj returns the standing success exactly when the
controllable already stands on a returned cell that has a tile; when it
stands on none of the tiled returned cells, the call fails exactly when no
returned tiled cell yields a path shorter than the hardcoded bound 3000,
and any path it moves along is a found path, shorter than 3000, of minimal
length among the found paths shorter than 3000. -/
theorem moveCurrentControllableToObj_spec (hasTile : Pos → Bool)
    (getPathFn : Pos → Pos → Option (List Pos)) (ctrl : Pos)
    (cells : List Pos) :
    (moveCurrentControllableToObj hasTile getPathFn ctrl cells = .standing
      ↔ (ctrl ∈ cells ∧ hasTile ctrl = true))
    ∧ ((∀ cell ∈ cells, hasTile cell = true → cell ≠ ctrl) →
        ((moveCurrentControllableToObj hasTile getPathFn ctrl cells = .failed
          ↔ ∀ p ∈ foundPaths hasTile getPathFn ctrl cells, 3000 ≤ p.length)
         ∧ (∀ p, moveCurrentControllableToObj hasTile getPathFn ctrl cells
              = .movedAlong p →
            p ∈ foundPaths hasTile getPathFn ctrl cells ∧ p.length < 3000
            ∧ ∀ q ∈ foundPaths hasTile getPathFn ctrl cells,
                q.length < 3000 → p.length ≤ q.length))) := by
  constructor
  · rw [moveCurrentControllableToObj, adjacentLoop_standing]
    constructor
    · rintro ⟨cell, hmem, ht, rfl⟩
      exact ⟨hmem, ht⟩
    · rintro ⟨hmem, ht⟩
      exact ⟨ctrl, hmem, ht, rfl⟩
  · intro hns
    rw [moveCurrentControllableToObj, adjacentLoop_noStanding _ _ _ _ _ _ hns]
    have hn := foldMin_none (foundPaths hasTile getPathFn ctrl cells) 3000 none
    constructor
    · constructor
      · intro hfail
        cases hfm : (foldMin (foundPaths hasTile getPathFn ctrl cells)
            3000 none).2 with
        | some p =>
          rw [hfm] at hfail
          exact absurd hfail (by simp)
        | none =>
          exact ((hn.mp hfm).2)
      · intro hall
        rw [hn.mpr ⟨rfl, hall⟩]
    · intro p hmv
      cases hfm : (foldMin (foundPaths hasTile getPathFn ctrl cells)
          3000 none).2 with
      | none =>
        rw [hfm] at hmv
        exact absurd hmv (by simp)
      | some p2 =>
        rw [hfm] at hmv
        simp only [MoveToObjResult.movedAlong.injEq] at hmv
        subst hmv
        obtain ⟨hfst, hmin⟩ := foldMin_some_spec _ _ _ _ hfm
        rcases hfst with ⟨hmem, hlt⟩ | heq
        · exact ⟨hmem, hlt, hmin⟩
        · cases heq

/-- C8 counterexample data: the only tiled cell is (c 1, r 0). -/
def cexHasTile : Pos → Bool := fun p => decide (p = ⟨1, 0⟩)

/-- C8 counterexample data: the route to the tiled cell is 3000 steps long;
no other route exists. -/
def cexGetPath : Pos → Pos → Option (List Pos) :=
  fun _ q => if q = ⟨1, 0⟩ then some (List.replicate 3000 ⟨1, 0⟩) else none

/-- C8 counterexample: the controllable at the origin stands on a returned
cell (which has no tile) and a 3000-step path exists to the other returned
cell, yet the scan returns the failure result — the claim promised the
standing success, and promised failure only when no returned cell yields a
path. -/
theorem moveCurrentControllableToObj_counterexample :
    moveCurrentControllableToObj cexHasTile cexGetPath ⟨0, 0⟩
      [⟨0, 0⟩, ⟨1, 0⟩] = .failed
    ∧ ((⟨0, 0⟩ : Pos) ∈ [(⟨0, 0⟩ : Pos), ⟨1, 0⟩])
    ∧ (cexGetPath ⟨0, 0⟩ ⟨1, 0⟩).isSome = true := by
  refine ⟨?_, by simp, ?_⟩
  · have hns : ∀ cell ∈ [(⟨0, 0⟩ : Pos), ⟨1, 0⟩],
        cexHasTile cell = true → cell ≠ ⟨0, 0⟩ := by
      decide
    rw [moveCurrentControllableToObj,
      adjacentLoop_noStanding _ _ _ _ _ _ hns]
    have hfp : foundPaths cexHasTile cexGetPath ⟨0, 0⟩ [⟨0, 0⟩, ⟨1, 0⟩]
        = [List.replicate 3000 ⟨1, 0⟩] := rfl
    have hnotlt : ¬ ((List.replicate 3000 (⟨1, 0⟩ : Pos)).length < 3000) := by
      rw [List.length_replicate]
      omega
    rw [hfp]
    simp only [foldMin]
    rw [if_neg hnotlt]
  · rw [show cexGetPath ⟨0, 0⟩ ⟨1, 0⟩
        = some (List.replicate 3000 ⟨1, 0⟩) from rfl]
    rfl

/-- Witness for C2 amended at concrete positions: the probe solver receives
5, 7, 1, 2 — columns first. -/
theorem getPath_columnFirst_witness :
    getPath ⟨some probeSolve⟩ ⟨5, 7⟩ ⟨1, 2⟩ = .ok (probeSolve 5 7 1 2) :=
  getPath_columnFirst probeSolve ⟨5, 7⟩ ⟨1, 2⟩

/-- Witness for C5 amended at a concrete one-step path: a returned path is
never reported as the no-route result. -/
theorem checkAndMove_emptyPath_spec_witness :
    (checkAndMoveObjectToLocation (some [⟨1, 1⟩])).1 ≠ .noPath :=
  checkAndMove_emptyPath_spec.2.2.1 [⟨1, 1⟩]

/-- Witness for C6 at a concrete 2-by-1 footprint anchored at the origin:
the anchor cell is in the footprint and the cell one column past it is
not. -/
theorem objRefLocation_footprint_spec_witness :
    ((⟨0, 0⟩ : Pos) ∈ footprint ⟨0, 0⟩ 2 1)
    ∧ ¬ ((⟨2, 0⟩ : Pos) ∈ footprint ⟨0, 0⟩ 2 1) := by
  have h := objRefLocation_footprint_spec emptyGrid ⟨7, true, 2, 1⟩ ⟨0, 0⟩
  constructor
  · exact (h.2.1 ⟨0, 0⟩).mpr (by decide)
  · intro hmem
    exact absurd ((h.2.1 ⟨2, 0⟩).mp hmem) (by decide)

/-- Witness for C8 amended at concrete data: a controllable standing on the
tiled returned cell gets the immediate standing success. -/
theorem moveCurrentControllableToObj_spec_witness :
    moveCurrentControllableToObj cexHasTile cexGetPath ⟨1, 0⟩
      [⟨0, 0⟩, ⟨1, 0⟩] = .standing :=
  (moveCurrentControllableToObj_spec cexHasTile cexGetPath ⟨1, 0⟩
    [⟨0, 0⟩, ⟨1, 0⟩]).1.mpr ⟨by decide, rfl⟩

end Traviso
